import Mathlib

/-!
Verification model of the component reconciliation engine: the attribute
diff routine (concatInputsAndState), the sequential update executor
(resolveInSequence), the AwsSnsTopic resource adapter (construct,
shouldDeploy, createSNSTopic, updateAttributes) and the recursive
tree-definition routine (defineComponent).
-/

namespace Components

/-- JavaScript-style primitive values as they flow through the adapter:
strings, numbers, booleans and the undefined/null marker. -/
inductive JVal : Type where
  | vstr (s : String)
  | vnum (n : Int)
  | vbool (b : Bool)
  | vundef
deriving DecidableEq

/-- JavaScript truthiness of a modelled value. -/
def truthy : JVal → Bool
  | .vstr s => s != ""
  | .vnum n => n != 0
  | .vbool b => b
  | .vundef => false

/-- isNil from the utils library: true exactly on undefined/null
(both folded into the vundef constructor). -/
def isNilJ : JVal → Bool
  | .vundef => true
  | _ => false

/-- An attribute singleton object as the adapter passes them around
(items of the shape left-brace key : value right-brace): one key mapped
to one value. -/
abbrev Attr := String × JVal

/-- The accumulator body of the reduce(...) inside concatInputsAndState:
a previous-state attribute whose key is not among the desired-side keys is
appended as an explicit unset (empty string value). -/
def unsetStep (attributeKeys : List String) (acc : List Attr) (item : Attr) :
    List Attr :=
  if attributeKeys.contains item.1 then acc
  else acc ++ [(item.1, JVal.vstr "")]

/-- The reduce(...) of concatInputsAndState, folded over the previous state
starting from the empty list. -/
def unsetFold (attributeKeys : List String) (state : List Attr) : List Attr :=
  state.foldl (unsetStep attributeKeys) []

/-- concatInputsAndState from src/registry/AwsSnsTopic/src/index.js: the
attribute diff. Desired inputs are concatenated with explicit unsets for
previous-state keys missing from the desired keys, and every item that
already occurs (deep-equal) in the previous state is filtered out. -/
def concatInputsAndState (inputs state : List Attr) : List Attr :=
  let attributeKeys := inputs.map Prod.fst
  (inputs ++ unsetFold attributeKeys state).filter (fun item => !state.contains item)

/-- If every attribute key of the state occurs among the desired keys,
the unset fold contributes nothing. -/
theorem unsetFold_eq_nil_aux (attributeKeys : List String) :
    ∀ (state acc : List Attr),
      (∀ a ∈ state, a.1 ∈ attributeKeys) →
      state.foldl (unsetStep attributeKeys) acc = acc := by
  intro state
  induction state with
  | nil => intro acc _; rfl
  | cons hd tl ih =>
    intro acc h
    have hhd : hd.1 ∈ attributeKeys := h hd (List.mem_cons_self hd tl)
    have hstep : unsetStep attributeKeys acc hd = acc := by
      simp [unsetStep, hhd]
    simp only [List.foldl_cons, hstep]
    exact ih acc (fun a ha => h a (List.mem_cons_of_mem hd ha))

/-- Elements already in the accumulator survive the unset fold. -/
theorem mem_foldl_unsetStep_of_mem_acc (attributeKeys : List String) :
    ∀ (state acc : List Attr) (x : Attr),
      x ∈ acc → x ∈ state.foldl (unsetStep attributeKeys) acc := by
  intro state
  induction state with
  | nil => intro acc x hx; simpa using hx
  | cons hd tl ih =>
    intro acc x hx
    simp only [List.foldl_cons]
    apply ih
    unfold unsetStep
    split
    · exact hx
    · exact List.mem_append_left _ hx

/-- A previous-state attribute whose key is missing from the desired keys
produces its unset entry inside the fold. -/
theorem mem_foldl_unsetStep (attributeKeys : List String) :
    ∀ (state acc : List Attr) (k : String) (v : JVal),
      (k, v) ∈ state → k ∉ attributeKeys →
      (k, JVal.vstr "") ∈ state.foldl (unsetStep attributeKeys) acc := by
  intro state
  induction state with
  | nil => intro acc k v h _; simp at h
  | cons hd tl ih =>
    intro acc k v hmem hkc
    rcases List.mem_cons.mp hmem with heq | htl
    · subst heq
      simp only [List.foldl_cons]
      apply mem_foldl_unsetStep_of_mem_acc
      have hstep : unsetStep attributeKeys acc (k, v) = acc ++ [(k, JVal.vstr "")] := by
        simp [unsetStep, hkc]
      rw [hstep]
      exact List.mem_append_right _ (List.mem_singleton.mpr rfl)
    · exact ih (unsetStep attributeKeys acc hd) k v htl hkc

/-- C9: the attribute diff is idempotent — diffing an attribute set against
itself yields the empty change list (no set operations and no unsets). -/
theorem concatInputsAndState_idempotent (d : List Attr) :
    concatInputsAndState d d = [] := by
  unfold concatInputsAndState unsetFold
  have hfold : d.foldl (unsetStep (d.map Prod.fst)) [] = [] := by
    apply unsetFold_eq_nil_aux
    intro a ha
    exact List.mem_map_of_mem Prod.fst ha
  simp only [hfold, List.append_nil]
  rw [List.filter_eq_nil_iff]
  intro a ha
  simp [ha]

/-- C6: any attribute that is truthy in the previous attributes and whose
key is absent from the desired-side key set appears in the diff output as
an explicit unset entry with empty-string value. The previous attributes
are an attribute set, so their keys are assumed pairwise distinct. -/
theorem concatInputsAndState_unset_removed (inputs state : List Attr)
    (k : String) (v : JVal)
    (hmem : (k, v) ∈ state) (htr : truthy v = true)
    (hnodup : (state.map Prod.fst).Nodup)
    (habs : k ∉ inputs.map Prod.fst) :
    (k, JVal.vstr "") ∈ concatInputsAndState inputs state := by
  have hin : (k, JVal.vstr "") ∈ inputs ++ unsetFold (inputs.map Prod.fst) state :=
    List.mem_append_right _ (mem_foldl_unsetStep (inputs.map Prod.fst) state [] k v hmem habs)
  have hnotstate : (k, JVal.vstr "") ∉ state := by
    intro hcontra
    have hinj := List.inj_on_of_nodup_map hnodup
    have heq : ((k, v) : Attr) = (k, JVal.vstr "") := hinj hmem hcontra rfl
    have hveq : v = JVal.vstr "" := congrArg Prod.snd heq
    rw [hveq] at htr
    simp [truthy] at htr
  unfold concatInputsAndState
  apply List.mem_filter.mpr
  refine ⟨hin, ?_⟩
  simpa using hnotstate

/-- C6 witness (spec scenario C): previous holds topicName, policy and
deliveryPolicy, desired drops deliveryPolicy — the diff includes the unset
entry for deliveryPolicy. -/
theorem concatInputsAndState_unset_removed_witness :
    ("deliveryPolicy", JVal.vstr "") ∈
      concatInputsAndState
        [("topicName", JVal.vstr "orders"), ("policy", JVal.vstr "P1")]
        [("topicName", JVal.vstr "orders"), ("policy", JVal.vstr "P1"),
          ("deliveryPolicy", JVal.vstr "D1")] :=
  concatInputsAndState_unset_removed
    [("topicName", JVal.vstr "orders"), ("policy", JVal.vstr "P1")]
    [("topicName", JVal.vstr "orders"), ("policy", JVal.vstr "P1"),
      ("deliveryPolicy", JVal.vstr "D1")]
    "deliveryPolicy" (JVal.vstr "D1")
    (by decide) (by decide) (by decide) (by decide)

/-- The settled outcome of an executed operation, as an Option. -/
def okValue {E A : Type} : Except E A → Option A
  | .ok v => some v
  | .error _ => none

/-- Whether an Except value is a success. -/
def isOkE {E A : Type} : Except E A → Bool
  | .ok _ => true
  | .error _ => false

/-- One link of the promise chain built by the reduce in resolveInSequence:
while the chain is resolved, the next thunk is invoked (its id appended to
the execution trace) and then-chained so its settled value is appended to
the accumulated result list (concat of a non-array value) or its rejection
takes over the chain; once the chain is rejected, later then-callbacks are
skipped, so the thunk is never invoked and the rejection propagates. -/
def seqStep {E A : Type} (promise : List Nat × Except E (List A))
    (functionToExecute : Nat × Except E A) : List Nat × Except E (List A) :=
  match promise.2 with
  | .error e => (promise.1, .error e)
  | .ok result =>
    match functionToExecute.2 with
    | .error err => (promise.1 ++ [functionToExecute.1], .error err)
    | .ok v => (promise.1 ++ [functionToExecute.1], .ok (result ++ [v]))

/-- resolveInSequence from src/registry/AwsSnsTopic/src/index.js, the
sequential update executor. Each asynchronous operation is modelled as an
identifier (recorded in the execution trace exactly when the operation is
invoked) together with the settled outcome of its promise; the reduce
chains every operation behind the previous one starting from a resolved
empty result list. -/
def resolveInSequence {E A : Type} (functionsToExecute : List (Nat × Except E A)) :
    List Nat × Except E (List A) :=
  functionsToExecute.foldl seqStep ([], .ok [])

/-- A rejected chain ignores all remaining operations. -/
theorem resolveInSequence_foldl_error {E A : Type} :
    ∀ (l : List (Nat × Except E A)) (tr : List Nat) (e : E),
      l.foldl seqStep (tr, Except.error e) = (tr, Except.error e) := by
  intro l
  induction l with
  | nil => intro tr e; rfl
  | cons hd tl ih => intro tr e; simpa [seqStep] using ih tr e

/-- A resolved chain over successful operations invokes each operation in
list order and accumulates the values in order. -/
theorem resolveInSequence_foldl_ok {E A : Type} :
    ∀ (l : List (Nat × Except E A)) (tr : List Nat) (res : List A),
      (∀ x ∈ l, isOkE x.2 = true) →
      l.foldl seqStep (tr, Except.ok res) =
        (tr ++ l.map Prod.fst, Except.ok (res ++ l.filterMap (fun x => okValue x.2))) := by
  intro l
  induction l with
  | nil => intro tr res _; simp
  | cons hd tl ih =>
    intro tr res h
    have hhd : isOkE hd.2 = true := h hd (List.mem_cons_self hd tl)
    match hv : hd.2 with
    | .error e => rw [hv] at hhd; simp [isOkE] at hhd
    | .ok v =>
      have hstep : seqStep (tr, Except.ok res) hd = (tr ++ [hd.1], Except.ok (res ++ [v])) := by
        simp [seqStep, hv]
      simp only [List.foldl_cons, hstep]
      rw [ih (tr ++ [hd.1]) (res ++ [v]) (fun x hx => h x (List.mem_cons_of_mem hd hx))]
      simp [okValue, hv]

/-- C7: the sequential update executor invokes each operation only after the
previous one settles (the execution trace lists invoked operation ids in list
order), accumulates one result per operation in the order the operations were
given, and on the first rejection never invokes the remaining operations and
propagates that rejection. -/
theorem resolveInSequence_spec {E A : Type} (good : List (Nat × Except E A))
    (h : ∀ x ∈ good, isOkE x.2 = true) :
    resolveInSequence good =
      (good.map Prod.fst, Except.ok (good.filterMap (fun x => okValue x.2))) ∧
    ∀ (i : Nat) (e : E) (rest : List (Nat × Except E A)),
      resolveInSequence (good ++ (i, Except.error e) :: rest) =
        (good.map Prod.fst ++ [i], Except.error e) := by
  constructor
  · unfold resolveInSequence
    simpa using resolveInSequence_foldl_ok good [] [] h
  · intro i e rest
    unfold resolveInSequence
    rw [List.foldl_append, resolveInSequence_foldl_ok good [] [] h]
    have hstep : seqStep
        (([] : List Nat) ++ good.map Prod.fst,
          Except.ok (([] : List A) ++ good.filterMap (fun x => okValue x.2)))
        (i, Except.error e) =
        (([] : List Nat) ++ good.map Prod.fst ++ [i], Except.error e) := by
      simp [seqStep]
    simp only [List.foldl_cons, hstep]
    simpa using resolveInSequence_foldl_error rest (List.map Prod.fst good ++ [i]) e

/-- C7 witness: two successful operations run in order and accumulate both
results; a failing third operation propagates its rejection and the fourth
operation is never invoked. -/
theorem resolveInSequence_spec_witness :
    resolveInSequence [(0, Except.ok 10), (1, Except.ok 20)] =
      ([0, 1], (Except.ok [10, 20] : Except String (List Nat))) ∧
    resolveInSequence
        ([(0, Except.ok 10), (1, Except.ok 20)] ++
          (2, (Except.error "rate exceeded" : Except String Nat)) :: [(3, Except.ok 40)]) =
      ([0, 1, 2], Except.error "rate exceeded") := by
  have h := resolveInSequence_spec (E := String) (A := Nat)
    [(0, Except.ok 10), (1, Except.ok 20)] (by decide)
  exact ⟨h.1.trans (by rfl), (h.2 2 "rate exceeded" [(3, Except.ok 40)]).trans (by rfl)⟩

/-- capitalize from src/registry/AwsSnsTopic/src/index.js: first character
upper-cased, rest unchanged. -/
def capitalize (s : String) : String :=
  match s.data with
  | [] => ""
  | c :: cs => String.mk (c.toUpper :: cs)

/-- The AttributeValue serialization in the update calls: a string passes
through unchanged, a non-string value is JSON-encoded. (The adapter only
ever reaches this with defined values.) -/
def attrValueString : JVal → String
  | .vstr s => s
  | .vnum n => toString n
  | .vbool b => if b then "true" else "false"
  | .vundef => "undefined"

/-- A call issued against the provider SDK by the topic adapter. -/
inductive SnsCall : Type where
  | createTopic (name : String)
  | setTopicAttributes (topicArn attributeName attributeValue : String)
deriving DecidableEq

/-- updateTopicAttributes from src/registry/AwsSnsTopic/src/index.js: one
setTopicAttributes call per diffed attribute (capitalized key, serialized
value), dispatched over the list (Promise.all keeps the list order of the
issued calls). -/
def updateTopicAttributesCalls (topicArn : String) (topicAttributes : List Attr) :
    List SnsCall :=
  topicAttributes.map
    (fun a => SnsCall.setTopicAttributes topicArn (capitalize a.1) (attrValueString a.2))

/-- updateDeliveryStatusAttributes from the same file: identical call shape,
but executed through resolveInSequence, one call after another, in list
order. -/
def updateDeliveryStatusAttributesCalls (topicArn : String)
    (deliveryStatusAttributes : List Attr) : List SnsCall :=
  deliveryStatusAttributes.map
    (fun a => SnsCall.setTopicAttributes topicArn (capitalize a.1) (attrValueString a.2))

/-- The previous instance fields consulted by updateAttributes. A missing
field is vundef; a missing deliveryStatusAttributes list is none (the
concatInputsAndState default turns it into the empty list). -/
structure PrevInstance where
  displayName : JVal
  policy : JVal
  deliveryPolicy : JVal
  deliveryStatusAttributes : Option (List Attr)
deriving DecidableEq

/-- The empty previous instance passed by createSNSTopic. -/
def emptyPrevInstance : PrevInstance :=
  { displayName := .vundef, policy := .vundef, deliveryPolicy := .vundef
    deliveryStatusAttributes := none }

/-- updateAttributes from src/registry/AwsSnsTopic/src/index.js, as the list
of provider calls it issues: the truthiness-filtered desired single-valued
attributes are diffed against the isNil-filtered previous ones and updated
through updateTopicAttributes; the flattened delivery status attributes are
diffed against the previous ones and updated through
updateDeliveryStatusAttributes (primary group first, then the rate-limited
group). deliveryStatusAttributes defaults to the empty list when absent. -/
def updateAttributesCalls (displayName policy deliveryPolicy : JVal)
    (deliveryStatusAttributes : List (List Attr)) (topicArn : String)
    (prevInstance : PrevInstance) : List SnsCall :=
  let topicAttributes :=
    ([("displayName", displayName), ("policy", policy),
        ("deliveryPolicy", deliveryPolicy)] : List Attr).foldl
      (fun result value => if truthy value.2 then result ++ [value] else result) []
  let prevInstanceTopicAttributes :=
    ([("displayName", prevInstance.displayName), ("policy", prevInstance.policy),
        ("deliveryPolicy", prevInstance.deliveryPolicy)] : List Attr).filter
      (fun item => !isNilJ item.2)
  let topicAttributesToUpdate :=
    concatInputsAndState topicAttributes prevInstanceTopicAttributes
  let flatDeliveryStatusAttributes :=
    deliveryStatusAttributes.foldl (fun result a => result ++ a) []
  let deliveryStatusAttributesToUpdate :=
    concatInputsAndState flatDeliveryStatusAttributes
      (prevInstance.deliveryStatusAttributes.getD [])
  updateTopicAttributesCalls topicArn topicAttributesToUpdate ++
    updateDeliveryStatusAttributesCalls topicArn deliveryStatusAttributesToUpdate

/-- createSNSTopic from src/registry/AwsSnsTopic/src/index.js, as the list
of provider calls it issues: one createTopic call (the provider answers
with the topic ARN, modelled by arnOf), followed by updateAttributes run
against the empty previous instance. -/
def createSNSTopicCalls (arnOf : String → String) (topicName : String)
    (displayName policy deliveryPolicy : JVal)
    (deliveryStatusAttributes : List (List Attr)) : List SnsCall :=
  let topicArn := arnOf topicName
  SnsCall.createTopic topicName ::
    updateAttributesCalls displayName policy deliveryPolicy deliveryStatusAttributes
      topicArn emptyPrevInstance

/-- Whether a provider call is a creation call. -/
def isCreateCall : SnsCall → Bool
  | .createTopic _ => true
  | _ => false

/-- Whether a provider call is an attribute-update call. -/
def isSetAttributesCall : SnsCall → Bool
  | .setTopicAttributes _ _ _ => true
  | _ => false

/-- C2 counterexample: on the create path for desired topicName "orders",
displayName "Orders" (scenario A), the adapter does NOT issue zero
attribute-update calls — the truthy displayName survives the diff against
the empty previous instance and produces a setTopicAttributes call, so the
claimed "one creation call and zero update calls" is false at this input. -/
theorem createSNSTopic_scenarioA_cex :
    ¬ (((createSNSTopicCalls (fun n => String.append "arn:aws:sns:" n) "orders"
          (JVal.vstr "Orders") JVal.vundef JVal.vundef []).countP isCreateCall = 1) ∧
       ((createSNSTopicCalls (fun n => String.append "arn:aws:sns:" n) "orders"
          (JVal.vstr "Orders") JVal.vundef JVal.vundef []).countP isSetAttributesCall = 0)) := by
  decide

/-- C2 amended: on the create path with desired topicName "orders" and
displayName "Orders" and no previous state, the adapter issues exactly one
creation call followed by exactly one attribute-update call, the one
setting DisplayName to "Orders"; no other calls are issued. -/
theorem createSNSTopic_scenarioA_calls (arnOf : String → String) :
    createSNSTopicCalls arnOf "orders" (JVal.vstr "Orders") JVal.vundef JVal.vundef [] =
      [SnsCall.createTopic "orders",
        SnsCall.setTopicAttributes (arnOf "orders") "DisplayName" "Orders"] := by
  rfl

/-- The topic instance fields assigned by construct. -/
structure TopicInstance where
  provider : JVal
  topicName : JVal
  displayName : JVal
  policy : JVal
  deliveryPolicy : JVal
  deliveryStatusAttributes : JVal
deriving DecidableEq

/-- The declared inputs handed to construct; absent fields are vundef. -/
structure TopicInputs where
  provider : JVal
  topicName : JVal
  displayName : JVal
  policy : JVal
  deliveryPolicy : JVal
  deliveryStatusAttributes : JVal
deriving DecidableEq

/-- construct from src/registry/AwsSnsTopic/src/index.js. The instanceId is
the stable identifier assigned by the superclass constructor (outside this
adapter); contextProvider models context.get applied at the provider key.
Both defaulting assignments use JavaScript truthiness. -/
def construct (inputs : TopicInputs) (contextProvider : JVal) (instanceId : String) :
    TopicInstance :=
  { provider := if truthy inputs.provider then inputs.provider else contextProvider
    topicName :=
      if truthy inputs.topicName then inputs.topicName
      else .vstr (String.append "sns-" instanceId)
    displayName := inputs.displayName
    policy := inputs.policy
    deliveryPolicy := inputs.deliveryPolicy
    deliveryStatusAttributes := inputs.deliveryStatusAttributes }

/-- The lifecycle outcome strings. -/
def DEPLOY : String := "deploy"

/-- The replace outcome string. -/
def REPLACE : String := "replace"

/-- shouldDeploy from src/registry/AwsSnsTopic/src/index.js. A missing
previous instance (undefined, falsy) yields the deploy outcome; a strict
inequality on topicName or policy yields the replace outcome; otherwise the
method falls through and returns undefined, modelled as none. -/
def shouldDeploy (self : TopicInstance) (prevInstance : Option TopicInstance) :
    Option String :=
  match prevInstance with
  | none => some DEPLOY
  | some prev =>
    if prev.topicName ≠ self.topicName ∨ prev.policy ≠ self.policy then some REPLACE
    else none

/-- C5: shouldDeploy yields deploy when no previous instance exists, replace
when the topic name or the policy differs between previous and desired, and
otherwise no change outcome (the fall-through, undefined, modelled as none)
— even when mutable fields such as displayName differ. -/
theorem shouldDeploy_spec (self : TopicInstance) :
    shouldDeploy self none = some DEPLOY ∧
    (∀ prev : TopicInstance,
      prev.topicName ≠ self.topicName ∨ prev.policy ≠ self.policy →
      shouldDeploy self (some prev) = some REPLACE) ∧
    (∀ prev : TopicInstance,
      prev.topicName = self.topicName → prev.policy = self.policy →
      shouldDeploy self (some prev) = none) := by
  refine ⟨rfl, ?_, ?_⟩
  · intro prev hdiff
    simp [shouldDeploy, hdiff]
  · intro prev hname hpol
    simp [shouldDeploy, hname, hpol]

/-- C5 witness: a desired topic with name "orders" and policy "P1" against
no previous instance yields deploy; against a previous instance with a
different policy yields replace; against a previous instance equal on name
and policy but with a different displayName yields none. -/
theorem shouldDeploy_spec_witness :
    shouldDeploy
        ⟨JVal.vundef, JVal.vstr "orders", JVal.vstr "Orders", JVal.vstr "P1",
          JVal.vundef, JVal.vundef⟩ none = some DEPLOY ∧
    shouldDeploy
        ⟨JVal.vundef, JVal.vstr "orders", JVal.vstr "Orders", JVal.vstr "P1",
          JVal.vundef, JVal.vundef⟩
        (some ⟨JVal.vundef, JVal.vstr "orders", JVal.vstr "Orders", JVal.vstr "P2",
          JVal.vundef, JVal.vundef⟩) = some REPLACE ∧
    shouldDeploy
        ⟨JVal.vundef, JVal.vstr "orders", JVal.vstr "Orders", JVal.vstr "P1",
          JVal.vundef, JVal.vundef⟩
        (some ⟨JVal.vundef, JVal.vstr "orders", JVal.vstr "Order Events", JVal.vstr "P1",
          JVal.vundef, JVal.vundef⟩) = none := by
  have h := shouldDeploy_spec
    ⟨JVal.vundef, JVal.vstr "orders", JVal.vstr "Orders", JVal.vstr "P1",
      JVal.vundef, JVal.vundef⟩
  exact ⟨h.1,
    h.2.1 ⟨JVal.vundef, JVal.vstr "orders", JVal.vstr "Orders", JVal.vstr "P2",
      JVal.vundef, JVal.vundef⟩ (by decide),
    h.2.2 ⟨JVal.vundef, JVal.vstr "orders", JVal.vstr "Order Events", JVal.vstr "P1",
      JVal.vundef, JVal.vundef⟩ rfl rfl⟩

/-- C10: a topic instance constructed without an explicit topicName input
gets the default name sns- followed by the stable instanceId, and the topic
name is always a defined value after construct. -/
theorem construct_topicName_default (inputs : TopicInputs) (contextProvider : JVal)
    (instanceId : String) :
    (inputs.topicName = JVal.vundef →
      (construct inputs contextProvider instanceId).topicName =
        JVal.vstr (String.append "sns-" instanceId)) ∧
    (construct inputs contextProvider instanceId).topicName ≠ JVal.vundef := by
  constructor
  · intro h
    simp [construct, h, truthy]
  · by_cases htr : truthy inputs.topicName = true
    · intro hcontra
      have : (construct inputs contextProvider instanceId).topicName = inputs.topicName := by
        simp [construct, htr]
      rw [this] at hcontra
      rw [hcontra] at htr
      simp [truthy] at htr
    · intro hcontra
      have : (construct inputs contextProvider instanceId).topicName =
          JVal.vstr (String.append "sns-" instanceId) := by
        simp [construct, htr]
      rw [this] at hcontra
      exact JVal.noConfusion hcontra

/-- C10 witness: with every input absent and instanceId "abc123" the
constructed topic name is sns-abc123, a defined value. -/
theorem construct_topicName_default_witness :
    (construct ⟨JVal.vundef, JVal.vundef, JVal.vundef, JVal.vundef, JVal.vundef,
        JVal.vundef⟩ JVal.vundef "abc123").topicName = JVal.vstr "sns-abc123" ∧
    (construct ⟨JVal.vundef, JVal.vundef, JVal.vundef, JVal.vundef, JVal.vundef,
        JVal.vundef⟩ JVal.vundef "abc123").topicName ≠ JVal.vundef := by
  have h := construct_topicName_default
    ⟨JVal.vundef, JVal.vundef, JVal.vundef, JVal.vundef, JVal.vundef, JVal.vundef⟩
    JVal.vundef "abc123"
  exact ⟨h.1 rfl, h.2⟩

/-- A component node as defineComponent (src/unnamed/part_000) consumes it.
Fields: a display name (what template-interpolating the object shows),
the status its sync method answers, the value its define method returns
(none when the node has no define method; a Sum.inl value is a
non-collection, non-mapping return such as a plain string; a Sum.inr value
is a keyed collection whose entries are components, or — when the entry is
none — values that are not components and get filtered out), the resolved
previous state the hydration pass attaches, the parent back-reference
(an identifier, per the weak-reference reading of the data model), and the
keyed children mapping. -/
inductive Component : Type where
  | mk (name : String)
       (syncStatus : String)
       (defineRet : Option (Sum String (List (String × Option Component))))
       (hydState : Option Component)
       (parent : Option String)
       (children : Option (List (String × Component)))

/-- The display name of a component. -/
def Component.name : Component → String
  | .mk n _ _ _ _ _ => n

/-- The status the sync method answers. -/
def Component.syncStatus : Component → String
  | .mk _ sy _ _ _ _ => sy

/-- The value the define method returns, when the method exists. -/
def Component.defineRet :
    Component → Option (Sum String (List (String × Option Component)))
  | .mk _ _ dr _ _ _ => dr

/-- The resolved previous state attached by hydration. -/
def Component.hydState : Component → Option Component
  | .mk _ _ _ hs _ _ => hs

/-- The parent back-reference. -/
def Component.parent : Component → Option String
  | .mk _ _ _ _ p _ => p

/-- The keyed children mapping. -/
def Component.children : Component → Option (List (String × Component))
  | .mk _ _ _ _ _ ch => ch

/-- clone from the utils library: a deep structural copy. On pure values a
deep copy is the value itself; which of the two resulting objects later
steps mutate is tracked separately (second component of defineComponentF).
-/
def clone (component : Component) : Component := component

/-- Modelled from the spec: hydrateComponent is imported by defineComponent
but its source is not under src/. Spec 4.1 step 3 describes it: hydrate the
original component by attaching onto it whatever resolved
configuration/state resulted from the sync step — so the original node
itself receives the effective previous state and is the node all
subsequent steps operate on. -/
def hydrateComponent (component : Component) (state : Option Component) : Component :=
  match component with
  | .mk n sy dr _ p ch => .mk n sy dr state p ch

/-- The child.parent assignment in the forEach of defineComponent. -/
def setParent (child : Component) (parentName : String) : Component :=
  match child with
  | .mk n sy dr hs _ ch => .mk n sy dr hs (some parentName) ch

/-- The component.children assignment at the end of defineComponent. -/
def setChildren (component : Component) (cs : List (String × Component)) : Component :=
  match component with
  | .mk n sy dr hs p _ => .mk n sy dr hs p (some cs)

/-- get at path children/key on the (possibly undefined) correlated
previous-state node: undefined-safe lookup. -/
def lookupChild (key : String) (state : Option Component) : Option Component :=
  (state.bind Component.children).bind
    (fun l => (l.find? (fun e => e.1 == key)).map Prod.snd)

/-- The message of the error thrown when define returns a non-collection,
non-mapping value: it names the received value and the offending component.
-/
def defineErrorMsg (received componentName : String) : String :=
  "define() method must return either an object or an array. Instead received "
    ++ received ++ " from " ++ componentName ++ "."

/-- The keyed map over the filtered children: each child is hydrated with
its correlated previous-state node; the first rejection propagates and the
keyed results are collected in order. -/
def mapChildren (f : String → Component → Except String Component) :
    List (String × Component) → Except String (List (String × Component))
  | [] => Except.ok []
  | e :: rest =>
    match f e.1 e.2 with
    | .error err => .error err
    | .ok r =>
      match mapChildren f rest with
      | .error err => .error err
      | .ok rs => .ok ((e.1, r) :: rs)

/-- defineComponent from src/unnamed/part_000. The fuel argument bounds the
recursion depth of the shallow embedding; every step of the algorithm is
fuel-independent as long as fuel is positive. The first component of the
result is the value of the returned promise (Except.error models a
rejection); the second component is the state of the caller's original
component object after the call — under the spec-modelled in-place
hydrateComponent, the original is the object the pass hydrates and
mutates, so it equals the hydrated node (or, on a rejection, the node as
mutated up to the throw: state attached, children not yet assigned).
Steps, in source order: clone the component; call sync on the clone; if
the status is not the removed marker the clone becomes the state; hydrate
the original component with that state; if there is a define method, take
its returned children, drop non-components, assign each child's parent
(unconditionally — the parent-conflict check is only a TODO comment),
throw on a non-collection return, and recursively define each child
against the correlated previous-state child. -/
def defineComponentF : Nat → Component → Option Component →
    Except String Component × Component
  | 0, component, _ => (Except.error "recursion fuel exhausted", component)
  | fuel + 1, component, state =>
    let componentClone := clone component
    let state1 :=
      if componentClone.syncStatus ≠ "removed" then some componentClone else state
    let hydrated := hydrateComponent component state1
    match hydrated.defineRet with
    | none => (Except.ok hydrated, hydrated)
    | some (Sum.inl received) =>
      (Except.error (defineErrorMsg received hydrated.name), hydrated)
    | some (Sum.inr entries) =>
      let filtered := entries.filterMap (fun e => e.2.map (fun c => (e.1, c)))
      let withParents := filtered.map (fun e => (e.1, setParent e.2 hydrated.name))
      match mapChildren
          (fun key child => (defineComponentF fuel child (lookupChild key state1)).1)
          withParents with
      | .error err => (.error err, hydrated)
      | .ok cs =>
        let final := setChildren hydrated cs
        (Except.ok final, final)

/-- Projection used by counterexamples: the name of the resolved previous
state attached to a successfully hydrated node. -/
def hydStateNameOf (x : Except String Component × Component) : Option String :=
  match x.1 with
  | .ok r => r.hydState.map Component.name
  | .error _ => none

/-- Projection used by counterexamples: whether hydration succeeded. -/
def isOkResult (x : Except String Component × Component) : Bool :=
  match x.1 with
  | .ok _ => true
  | .error _ => false

/-- Projection used by counterexamples: the parent reference of the child
stored at a key of a successfully hydrated node. -/
def childParentOf (x : Except String Component × Component) (key : String) :
    Option (Option String) :=
  match x.1 with
  | .ok r => ((r.children.getD []).find? (fun e => e.1 == key)).map (fun e => e.2.parent)
  | .error _ => none

/-- Projection used by counterexamples: the keys of a node's children
mapping. -/
def childNamesOf (c : Component) : Option (List String) :=
  c.children.map (fun l => l.map Prod.fst)

/-- The parent assignment sets the child's parent reference. -/
theorem setParent_parent (child : Component) (parentName : String) :
    (setParent child parentName).parent = some parentName := by
  cases child
  simp [setParent, Component.parent]

/-- The children assignment sets the node's children mapping. -/
theorem setChildren_children (component : Component) (cs : List (String × Component)) :
    (setChildren component cs).children = some cs := by
  cases component
  simp [setChildren, Component.children]

/-- A successful hydration never changes the node's parent reference. -/
theorem defineComponentF_ok_parent (fuel : Nat) (x : Component) (s : Option Component)
    (r : Component) (h : (defineComponentF fuel x s).1 = Except.ok r) :
    r.parent = x.parent := by
  cases fuel with
  | zero => simp [defineComponentF] at h
  | succ fuel =>
    cases x with
    | mk n sy dr hs p ch =>
      rcases dr with _ | (received | entries)
      · simp only [defineComponentF, clone, hydrateComponent, Component.syncStatus,
          Component.defineRet, Except.ok.injEq] at h
        subst h
        simp [Component.parent]
      · simp [defineComponentF, clone, hydrateComponent, Component.syncStatus,
          Component.defineRet, Component.name] at h
      · simp only [defineComponentF, clone, hydrateComponent, Component.syncStatus,
          Component.defineRet, Component.name] at h
        split at h
        · simp at h
        · rename_i cs heq
          simp only [Except.ok.injEq] at h
          subst h
          simp [setChildren, Component.parent]

/-- A successful keyed map over the children characterizes each keyed
result by the child it was computed from. -/
theorem mapChildren_ok_mem (f : String → Component → Except String Component) :
    ∀ (l out : List (String × Component)), mapChildren f l = Except.ok out →
      ∀ e ∈ out, ∃ x : Component, (e.1, x) ∈ l ∧ f e.1 x = Except.ok e.2 := by
  intro l
  induction l with
  | nil =>
    intro out h e he
    simp only [mapChildren, Except.ok.injEq] at h
    subst h
    simp at he
  | cons hd tl ih =>
    intro out h e he
    cases hf : f hd.1 hd.2 with
    | error err => simp [mapChildren, hf] at h
    | ok r =>
      cases hrest : mapChildren f tl with
      | error err => simp [mapChildren, hf, hrest] at h
      | ok rs =>
        simp only [mapChildren, hf, hrest, Except.ok.injEq] at h
        subst h
        rcases List.mem_cons.mp he with heq | htl
        · subst heq
          refine ⟨hd.2, ?_, hf⟩
          simp
        · obtain ⟨x, hx1, hx2⟩ := ih rs hrest e htl
          exact ⟨x, List.mem_cons_of_mem hd hx1, hx2⟩

/-- A previous-state snapshot correlated with a node whose sync answers the
removed marker. -/
def prevSnapshot : Component := .mk "prevRoot" "sync" none none none none

/-- A component whose sync answers the removed marker and that has no
define method. -/
def removedRoot : Component := .mk "root" "removed" none none none none

/-- C1 counterexample: when sync answers the removed marker, the
previous-state snapshot passed in is NOT discarded — the hydrated node
carries the passed-in snapshot (named prevRoot) as its effective previous
state, so a previous identity does survive, contradicting the claim that
the node is treated as newly defined. -/
theorem sync_removed_keeps_previous_state_cex :
    hydStateNameOf (defineComponentF 1 removedRoot (some prevSnapshot)) = some "prevRoot" ∧
    hydStateNameOf (defineComponentF 1 removedRoot (some prevSnapshot)) ≠ none := by
  decide

/-- C1 amended: when sync on the cloned component returns any status other
than the removed marker, the clone becomes the effective previous state
attached to the hydrated node; when it returns the removed marker, the
passed-in previous-state snapshot is kept unchanged as the effective
previous state (it is not discarded). -/
theorem defineComponent_effective_state (fuel : Nat) (c : Component)
    (state : Option Component) :
    (defineComponentF (fuel + 1) c state).2.hydState =
      if c.syncStatus = "removed" then state else some (clone c) := by
  cases c with
  | mk n sy dr hs p ch =>
    rcases dr with _ | (received | entries)
    · by_cases hsy : sy = "removed" <;>
        simp [defineComponentF, clone, hydrateComponent, Component.syncStatus,
          Component.defineRet, Component.hydState, hsy]
    · by_cases hsy : sy = "removed" <;>
        simp [defineComponentF, clone, hydrateComponent, Component.syncStatus,
          Component.defineRet, Component.hydState, Component.name, hsy]
    · simp only [defineComponentF, clone, hydrateComponent, Component.syncStatus,
        Component.defineRet, Component.name]
      split
      · by_cases hsy : sy = "removed" <;> simp [Component.hydState, hsy]
      · by_cases hsy : sy = "removed" <;> simp [setChildren, Component.hydState, hsy]

/-- A child returned from define that already carries a parent reference
(to a component named elsewhere). -/
def ownedChild : Component := .mk "kid" "sync" none none (some "elsewhere") none

/-- A component whose define returns a child that already has a parent. -/
def adoptingRoot : Component :=
  .mk "root" "sync" (some (Sum.inr [("a", some ownedChild)])) none none none

/-- The already-owned child after hydration attached it to its new parent. -/
def reparentedKid : Component := .mk "kid" "sync" none none (some "root") none

/-- The hydrated child node: state attached, parent overwritten. -/
def hydratedKid : Component :=
  .mk "kid" "sync" none (some reparentedKid) (some "root") none

/-- The hydrated adopting root with its hydrated child attached. -/
def hydratedAdoptingRoot : Component :=
  .mk "root" "sync" (some (Sum.inr [("a", some ownedChild)])) (some adoptingRoot) none
    (some [("a", hydratedKid)])

/-- C3 counterexample: a child returned from define that already carries a
parent reference is NOT detected as an error — hydration succeeds and the
child's existing parent (elsewhere) is silently overwritten with the
current node (root). -/
theorem parent_conflict_not_detected_cex :
    isOkResult (defineComponentF 2 adoptingRoot none) = true ∧
    childParentOf (defineComponentF 2 adoptingRoot none) "a" = some (some "root") := by
  decide

/-- C3 amended: hydration performs no parent-conflict check (the check is
only a TODO comment in the source): every child attached by a successful
hydration of a node with a define collection has its parent reference set
to the current node, whatever parent it carried before. -/
theorem defineComponent_overwrites_parent (fuel : Nat) (c : Component)
    (state : Option Component) (entries : List (String × Option Component))
    (r : Component)
    (hdef : c.defineRet = some (Sum.inr entries))
    (hok : (defineComponentF (fuel + 1) c state).1 = Except.ok r)
    (k : String) (ch : Component) (hmem : (k, ch) ∈ r.children.getD []) :
    ch.parent = some c.name := by
  cases c with
  | mk n sy dr hs p ch0 =>
    simp only [Component.defineRet] at hdef
    subst hdef
    simp only [Component.name]
    simp only [defineComponentF, clone, hydrateComponent, Component.syncStatus,
      Component.defineRet, Component.name] at hok
    split at hok
    · simp at hok
    · rename_i cs heq
      simp only [Except.ok.injEq] at hok
      subst hok
      rw [setChildren_children] at hmem
      simp only [Option.getD_some] at hmem
      obtain ⟨x, hx1, hx2⟩ := mapChildren_ok_mem _ _ cs heq (k, ch) hmem
      obtain ⟨y, hy1, hy2⟩ := List.mem_map.mp hx1
      have hxval : setParent y.2 n = x := congrArg Prod.snd hy2
      have hxpar : x.parent = some n := by
        rw [← hxval]
        exact setParent_parent y.2 n
      have hchpar := defineComponentF_ok_parent fuel x _ ch hx2
      rw [hchpar, hxpar]

/-- C3 amended witness: hydrating the adopting root succeeds with the
already-owned child reattached, and that child's parent is the root. -/
theorem defineComponent_overwrites_parent_witness :
    hydratedKid.parent = some adoptingRoot.name :=
  defineComponent_overwrites_parent 1 adoptingRoot none [("a", some ownedChild)]
    hydratedAdoptingRoot rfl rfl "a" hydratedKid (List.mem_singleton.mpr rfl)

/-- A child carrying no parent reference yet. -/
def freshChild : Component := .mk "kid" "sync" none none none none

/-- A component whose define returns one fresh child; its own children
field starts out absent. -/
def definingRoot : Component :=
  .mk "root" "sync" (some (Sum.inr [("a", some freshChild)])) none none none

/-- The hydrated defining root: effective previous state and the hydrated
child attached onto the original object. -/
def hydratedDefiningRoot : Component :=
  .mk "root" "sync" (some (Sum.inr [("a", some freshChild)])) (some definingRoot) none
    (some [("a", hydratedKid)])

/-- C4 counterexample: after hydration the caller's original component
object (second component of the result, under the spec-modelled in-place
hydrateComponent) has a children mapping holding key a, while the original
argument had no children field — the original IS mutated by the
reconciliation pass, contradicting the claim. -/
theorem hydrate_mutates_original_cex :
    childNamesOf (defineComponentF 2 definingRoot none).2 = some ["a"] ∧
    childNamesOf definingRoot = none := by
  decide

/-- C4 amended: the deep clone shields the caller's original component only
from the sync step; the pass then hydrates the original object itself
(spec 4.1 step 3), so on success the caller's object after the call is
exactly the returned hydrated node — with the effective previous state and
the hydrated children attached onto it. -/
theorem defineComponent_returns_mutated_original (fuel : Nat) (c : Component)
    (state : Option Component) (r : Component)
    (hok : (defineComponentF (fuel + 1) c state).1 = Except.ok r) :
    (defineComponentF (fuel + 1) c state).2 = r := by
  cases c with
  | mk n sy dr hs p ch =>
    rcases dr with _ | (received | entries)
    · simp only [defineComponentF, clone, hydrateComponent, Component.syncStatus,
        Component.defineRet, Except.ok.injEq] at hok ⊢
      exact hok
    · simp [defineComponentF, clone, hydrateComponent, Component.syncStatus,
        Component.defineRet, Component.name] at hok
    · simp only [defineComponentF, clone, hydrateComponent, Component.syncStatus,
        Component.defineRet, Component.name] at hok ⊢
      split at hok
      · simp at hok
      · rename_i cs heq
        simp only [Except.ok.injEq] at hok
        exact hok

/-- C4 amended witness: hydrating the defining root succeeds, and the
caller's original object after the call is the returned hydrated node. -/
theorem defineComponent_returns_mutated_original_witness :
    (defineComponentF 2 definingRoot none).2 = hydratedDefiningRoot :=
  defineComponent_returns_mutated_original 1 definingRoot none hydratedDefiningRoot rfl

/-- C8: when define returns a non-collection, non-mapping value (a plain
string), hydration rejects with the configuration error naming the
offending component, and no children are attached to the node — the
caller's object keeps whatever children field it had before the call. -/
theorem defineComponent_define_prim_error (fuel : Nat) (c : Component)
    (state : Option Component) (received : String)
    (hdef : c.defineRet = some (Sum.inl received)) :
    (defineComponentF (fuel + 1) c state).1 =
      Except.error (defineErrorMsg received c.name) ∧
    (defineComponentF (fuel + 1) c state).2.children = c.children := by
  cases c with
  | mk n sy dr hs p ch =>
    simp only [Component.defineRet] at hdef
    subst hdef
    constructor <;>
      simp [defineComponentF, clone, hydrateComponent, Component.syncStatus,
        Component.defineRet, Component.name, Component.children]

/-- A component whose define method returns a plain string. -/
def primRoot : Component := .mk "root" "sync" (some (Sum.inl "foo")) none none none

/-- C8 witness (spec scenario D): a define method returning the plain
string foo makes hydration reject with the configuration error naming the
root component, and the node's children field stays absent. -/
theorem defineComponent_define_prim_error_witness :
    (defineComponentF 1 primRoot none).1 =
      Except.error (defineErrorMsg "foo" "root") ∧
    (defineComponentF 1 primRoot none).2.children = none := by
  have h := defineComponent_define_prim_error 0 primRoot none "foo" rfl
  exact ⟨h.1, h.2.trans rfl⟩

end Components
